import Mathlib

/-!
Verification development for the scan orchestration and real-time
notification subsystem of the OSINT backend.

The definitions below are shallow embeddings of the Python source:
* `app/api/deps.py`            — credit reservation (`check_and_deduct_credits`)
* `app/tasks/scan_tasks.py`    — the Celery executor (`perform_osint_scan`,
                                  `OSINTScanTask.on_success` / `on_failure`)
* `app/services/history_service.py` — the durable task record store
                                  (`update_scan_log`, `get_scan_by_id`)
* `app/routers/history.py`     — the history query endpoints
* `app/core/socket_manager.py` — the live notification gateway
                                  (`ConnectionManager`)

Databases are modelled as lists of rows, timestamps as naturals
(`datetime.utcnow()` is passed in explicitly as `now`), f-string error
messages as structured values that carry exactly the data interpolated
into the corresponding Python format string, and Redis pub/sub messages
as an inductive type of the dictionaries the code publishes.
-/

set_option autoImplicit false

namespace Osint

/-- `ScanStatus` enum from `app/models/history.py`. -/
inductive ScanStatus
  | PENDING
  | PROCESSING
  | SUCCESS
  | FAILED
  | CANCELLED
deriving DecidableEq, Repr

/-- A terminal status, per the lifecycle state machine. -/
def ScanStatus.isTerminal : ScanStatus → Bool
  | .SUCCESS => true
  | .FAILED => true
  | .CANCELLED => true
  | _ => false

/-- Structured stand-ins for the f-string error messages built in
`app/tasks/scan_tasks.py`; each constructor carries exactly the data the
corresponding format string interpolates. -/
inductive ErrMsg
  /-- f-string: Collector type (collector_type) not found. Available: ... -/
  | unknownCollector (collector_type : String)
  /-- f-string: Task failed after (max_retries) retries: (exc) -/
  | taskFailedAfterRetries (max_retries : Nat) (exc : String)
  /-- f-string: Max retries exceeded: (exc) -/
  | maxRetriesExceeded (exc : String)
  /-- str(exc) for an arbitrary routine-raised exception. -/
  | raised (exc : String)
deriving DecidableEq, Repr

/-- The serialized `CollectorResult` dictionary (`result.model_dump()` or the
hand-built `error_result` dict in `scan_tasks.py`), restricted to the fields
the claims talk about. -/
structure ResultDict where
  collector_name : String
  target : String
  success : Bool
  error : Option ErrMsg
deriving DecidableEq, Repr

/-- One row of the `scan_history` table (`app/models/history.py`). -/
structure ScanHistory where
  id : String
  user_id : Nat
  target : String
  scan_type : String
  status : ScanStatus
  task_id : String
  result_snapshot : Option ResultDict
  error_message : Option ErrMsg
  performed_at : Nat
  completed_at : Option Nat
deriving DecidableEq, Repr

/-- The field assignments performed on a located row by `update_scan_log`
(`history_service.py` lines 119-129): status and completion time are always
set; result snapshot and error message only when the argument is not None. -/
def applyUpdate (r : ScanHistory) (status : ScanStatus)
    (result_snapshot : Option ResultDict) (error_message : Option ErrMsg)
    (now : Nat) : ScanHistory :=
  { r with
    status := status
    completed_at := some now
    result_snapshot :=
      match result_snapshot with
      | some v => some v
      | none => r.result_snapshot
    error_message :=
      match error_message with
      | some v => some v
      | none => r.error_message }

/-- `update_scan_log` (`history_service.py` lines 74-134): locate the first
row with the given `task_id` (`.filter(...).first()`); if none, return None
with the store untouched; otherwise apply the update to that row and commit.
Returns (the value returned to the caller, the store after commit). -/
def update_scan_log : List ScanHistory → String → ScanStatus →
    Option ResultDict → Option ErrMsg → Nat →
    Option ScanHistory × List ScanHistory
  | [], _, _, _, _, _ => (none, [])
  | r :: rest, task_id, status, result_snapshot, error_message, now =>
    if r.task_id = task_id then
      let r' := applyUpdate r status result_snapshot error_message now
      (some r', r' :: rest)
    else
      let p := update_scan_log rest task_id status result_snapshot error_message now
      (p.1, r :: p.2)

/-- A row of the `users` table (`app/models/user.py`): `credits_balance` is an
SQL `Integer` column, modelled as `Int`. -/
structure User where
  id : Nat
  credits_balance : Int
  is_active : Bool
deriving DecidableEq, Repr

/-- Outcome of the credit check in `deps.py`: either the deduction was
committed and the updated row returned, or an HTTP 402 was raised whose
detail and `X-Credits-*` headers carry required = cost,
available = balance, needed = cost - balance. -/
inductive CreditCheckResult
  | granted (user : User)
  | insufficientCredits (required : Int) (available : Int) (needed : Int)
deriving DecidableEq, Repr

/-- The locked read-check-write of `check_and_deduct_credits`
(`app/api/deps.py` lines 136-163), acting on the row selected
`FOR UPDATE`.  On `balance < cost` the 402 is raised and the transaction
rolled back, so the row is returned unchanged; otherwise the decremented
balance is committed.  Returns (result raised/returned, row after the
transaction). -/
def check_and_deduct_credits (cost : Int) (user : User) :
    CreditCheckResult × User :=
  if user.credits_balance < cost then
    (.insufficientCredits cost user.credits_balance
       (cost - user.credits_balance), user)
  else
    let u' := { user with credits_balance := user.credits_balance - cost }
    (.granted u', u')

/-!
Interleaving semantics for concurrent credit reservations (claim C2).

`SELECT ... FOR UPDATE` gives the reservation row-level exclusivity for the
duration of the read-check-write (`deps.py` lines 132-163, released by the
commit at line 160 or the rollback at lines 167/171).  We model each
concurrent request as a thread that must (1) acquire the row lock, reading
the balance in the same step, then (2) either commit the decrement or roll
back, releasing the lock.  A scheduler interleaves the threads arbitrarily,
subject only to the lock.
-/

/-- Progress of one concurrent reservation request. -/
inductive ResPhase
  /-- Request issued, `SELECT ... FOR UPDATE` not yet executed. -/
  | start
  /-- Holding the row lock, having observed balance `observed`. -/
  | locked (observed : Int)
  /-- Transaction finished; `granted` records whether the deduction
  was committed. -/
  | done (granted : Bool)
deriving DecidableEq, Repr

/-- One concurrent caller of the reservation, with the cost it tries to
deduct. -/
structure ResThread where
  cost : Int
  phase : ResPhase
deriving DecidableEq, Repr

/-- Shared state: the account row's balance, the holder of its row lock
(if any), and the per-thread progress. -/
structure LedgerSys where
  balance : Int
  lockHolder : Option Nat
  threads : List ResThread
deriving DecidableEq, Repr

/-- `true` for a thread whose deduction was committed. -/
def ResThread.isGranted (t : ResThread) : Bool :=
  match t.phase with
  | .done true => true
  | _ => false

/-- Total credits actually deducted by committed reservations. -/
def grantedSum : List ResThread → Int
  | [] => 0
  | t :: ts => (if t.isGranted then t.cost else 0) + grantedSum ts

/-- Initial state: balance `B`, lock free, one thread per requested cost. -/
def ledgerInit (B : Int) (costs : List Int) : LedgerSys :=
  { balance := B
    lockHolder := none
    threads := costs.map fun c => { cost := c, phase := .start } }

/-- One scheduler step.  `acquire` is `SELECT ... FOR UPDATE` (blocking if
the lock is held); `commit` is the balance check succeeding followed by the
decrement and `db.commit()`; `rollback` is the 402 path's `db.rollback()`.
Commit and rollback release the row lock. -/
inductive LedgerStep : LedgerSys → LedgerSys → Prop
  | acquire (s : LedgerSys) (i : Nat) (t : ResThread)
      (hget : s.threads.get? i = some t)
      (hphase : t.phase = .start)
      (hlock : s.lockHolder = none) :
      LedgerStep s
        { s with
          lockHolder := some i
          threads := s.threads.set i { t with phase := .locked s.balance } }
  | commit (s : LedgerSys) (i : Nat) (t : ResThread) (v : Int)
      (hget : s.threads.get? i = some t)
      (hphase : t.phase = .locked v)
      (hlock : s.lockHolder = some i)
      (hok : ¬ v < t.cost) :
      LedgerStep s
        { balance := v - t.cost
          lockHolder := none
          threads := s.threads.set i { t with phase := .done true } }
  | rollback (s : LedgerSys) (i : Nat) (t : ResThread) (v : Int)
      (hget : s.threads.get? i = some t)
      (hphase : t.phase = .locked v)
      (hlock : s.lockHolder = some i)
      (hfail : v < t.cost) :
      LedgerStep s
        { s with
          lockHolder := none
          threads := s.threads.set i { t with phase := .done false } }

/-- An arbitrary interleaving: any finite sequence of scheduler steps. -/
def LedgerReach : LedgerSys → LedgerSys → Prop :=
  Relation.ReflTransGen LedgerStep

/-- Auxiliary: reading back the updated index after `List.set`. -/
theorem get?_set_self {α : Type} (l : List α) (i : Nat) (a b : α)
    (h : l.get? i = some b) : (l.set i a).get? i = some a := by
  induction l generalizing i with
  | nil => simp [List.get?] at h
  | cons x xs ih =>
    cases i with
    | zero => simp [List.set, List.get?]
    | succ n => simpa [List.set, List.get?] using ih n h

/-- Auxiliary: `List.set` leaves other indices unchanged. -/
theorem get?_set_ne {α : Type} (l : List α) (i j : Nat) (a : α)
    (h : i ≠ j) : (l.set i a).get? j = l.get? j := by
  induction l generalizing i j with
  | nil => simp [List.set]
  | cons x xs ih =>
    cases i with
    | zero =>
      cases j with
      | zero => exact absurd rfl h
      | succ m => simp [List.set, List.get?]
    | succ n =>
      cases j with
      | zero => simp [List.set, List.get?]
      | succ m =>
        simpa [List.set, List.get?] using ih n m (fun he => h (by omega))

/-- How `grantedSum` changes when one thread is replaced by another with the
same cost. -/
theorem grantedSum_set (l : List ResThread) (i : Nat) (t t' : ResThread)
    (hget : l.get? i = some t) (hcost : t'.cost = t.cost) :
    grantedSum (l.set i t')
      = grantedSum l - (if t.isGranted then t.cost else 0)
          + (if t'.isGranted then t'.cost else 0) := by
  induction l generalizing i with
  | nil => simp [List.get?] at hget
  | cons x xs ih =>
    cases i with
    | zero =>
      simp only [List.get?] at hget
      cases hget
      simp only [List.set, grantedSum, hcost]
      ring
    | succ n =>
      simp only [List.get?] at hget
      simp only [List.set, grantedSum, ih n hget]
      ring

/-- The inductive invariant for the reservation interleaving semantics:
the balance is non-negative, the balance accounts exactly for every
committed deduction, the lock holder's observed balance is current, and
only the lock holder can be inside the critical section. -/
def LedgerInv (B : Int) (s : LedgerSys) : Prop :=
  0 ≤ s.balance ∧
  s.balance = B - grantedSum s.threads ∧
  (∀ i t v, s.lockHolder = some i → s.threads.get? i = some t →
     t.phase = .locked v → v = s.balance) ∧
  (∀ j t v, s.threads.get? j = some t → t.phase = .locked v →
     s.lockHolder = some j)

theorem ledgerInv_init (B : Int) (costs : List Int) (hB : 0 ≤ B) :
    LedgerInv B (ledgerInit B costs) := by
  have hsum : grantedSum (costs.map fun c => { cost := c, phase := .start }) = 0 := by
    induction costs with
    | nil => simp [grantedSum]
    | cons c cs ih => simp [grantedSum, ih, ResThread.isGranted]
  have hphase : ∀ j (t : ResThread),
      (costs.map fun c => ({ cost := c, phase := .start } : ResThread)).get? j = some t →
      t.phase = .start := by
    intro j t hj
    rw [List.get?_map] at hj
    cases hc : costs.get? j with
    | none => rw [hc] at hj; simp at hj
    | some c =>
      rw [hc] at hj
      simp only [Option.map_some'] at hj
      cases hj
      rfl
  refine ⟨hB, by simp [ledgerInit, hsum], ?_, ?_⟩
  · intro i t v hlock
    simp [ledgerInit] at hlock
  · intro j t v hget hphase'
    have := hphase j t hget
    rw [this] at hphase'
    cases hphase'

theorem ledgerInv_step (B : Int) (s s' : LedgerSys)
    (hstep : LedgerStep s s') (hinv : LedgerInv B s) : LedgerInv B s' := by
  obtain ⟨hnn, hbal, hobs, honly⟩ := hinv
  cases hstep with
  | acquire i t hget hphase hlock =>
    refine ⟨hnn, ?_, ?_, ?_⟩
    · show s.balance
        = B - grantedSum (s.threads.set i { t with phase := .locked s.balance })
      have hsum := grantedSum_set s.threads i t
        { t with phase := .locked s.balance } hget rfl
      have hng : t.isGranted = false := by
        simp [ResThread.isGranted, hphase]
      have hng' : ResThread.isGranted { t with phase := .locked s.balance } = false := by
        simp [ResThread.isGranted]
      rw [hsum, hng, hng']
      simp only [Bool.false_eq_true, if_false]
      omega
    · intro i' t' v hlock' hget' hph'
      have hii : some i = some i' := hlock'
      obtain rfl : i = i' := Option.some.inj hii
      rw [get?_set_self s.threads i _ t hget] at hget'
      obtain rfl : ({ t with phase := .locked s.balance } : ResThread) = t' :=
        Option.some.inj hget'
      have hvv : ResPhase.locked s.balance = .locked v := hph'
      injection hvv with h3
      exact h3.symm
    · intro j t' v hget' hph'
      by_cases hij : i = j
      · subst hij
        rfl
      · rw [get?_set_ne s.threads i j _ hij] at hget'
        have hj := honly j t' v hget' hph'
        simp [hlock] at hj
  | commit i t v hget hphase hlock hok =>
    have hv : v = s.balance := hobs i t v hlock hget hphase
    refine ⟨?_, ?_, ?_, ?_⟩
    · show (0:Int) ≤ v - t.cost
      omega
    · show v - t.cost
        = B - grantedSum (s.threads.set i { t with phase := .done true })
      have hsum := grantedSum_set s.threads i t
        { t with phase := .done true } hget rfl
      have hng : t.isGranted = false := by
        simp [ResThread.isGranted, hphase]
      have hg : ResThread.isGranted { t with phase := .done true } = true := by
        simp [ResThread.isGranted]
      rw [hsum, hng, hg]
      simp only [Bool.false_eq_true, if_false, if_true]
      omega
    · intro i' t' v' hlock' hget' hph'
      exact absurd hlock' (by simp)
    · intro j t' v' hget' hph'
      exfalso
      by_cases hij : i = j
      · subst hij
        rw [get?_set_self s.threads i _ t hget] at hget'
        obtain rfl : ({ t with phase := .done true } : ResThread) = t' :=
          Option.some.inj hget'
        have hvv : ResPhase.done true = .locked v' := hph'
        cases hvv
      · rw [get?_set_ne s.threads i j _ hij] at hget'
        have hj := honly j t' v' hget' hph'
        have hjj : some i = some j := hlock.symm.trans hj
        exact hij (Option.some.inj hjj)
  | rollback i t v hget hphase hlock hfail =>
    refine ⟨hnn, ?_, ?_, ?_⟩
    · show s.balance
        = B - grantedSum (s.threads.set i { t with phase := .done false })
      have hsum := grantedSum_set s.threads i t
        { t with phase := .done false } hget rfl
      have hng : t.isGranted = false := by
        simp [ResThread.isGranted, hphase]
      have hng' : ResThread.isGranted { t with phase := .done false } = false := by
        simp [ResThread.isGranted]
      rw [hsum, hng, hng']
      simp only [Bool.false_eq_true, if_false]
      omega
    · intro i' t' v' hlock' hget' hph'
      exact absurd hlock' (by simp)
    · intro j t' v' hget' hph'
      exfalso
      by_cases hij : i = j
      · subst hij
        rw [get?_set_self s.threads i _ t hget] at hget'
        obtain rfl : ({ t with phase := .done false } : ResThread) = t' :=
          Option.some.inj hget'
        have hvv : ResPhase.done false = .locked v' := hph'
        cases hvv
      · rw [get?_set_ne s.threads i j _ hij] at hget'
        have hj := honly j t' v' hget' hph'
        have hjj : some i = some j := hlock.symm.trans hj
        exact hij (Option.some.inj hjj)


theorem ledgerInv_reach (B : Int) (s s' : LedgerSys)
    (hreach : LedgerReach s s') (hinv : LedgerInv B s) : LedgerInv B s' := by
  induction hreach with
  | refl => exact hinv
  | tail _ hstep ih => exact ledgerInv_step B _ _ hstep ih

/-- C1: the credit reservation at scan submission fails with the 402 error
carrying required = C, available = balance, needed = C - balance exactly
when balance < C, and the rollback leaves the row unchanged; when
balance ≥ C it succeeds, the committed balance is the old balance minus C,
and a non-negative balance never becomes negative. -/
theorem check_and_deduct_credits_spec (user : User) (cost : Int)
    (hnn : 0 ≤ user.credits_balance) :
    (user.credits_balance < cost →
      check_and_deduct_credits cost user
        = (.insufficientCredits cost user.credits_balance
             (cost - user.credits_balance), user)) ∧
    (cost ≤ user.credits_balance →
      (check_and_deduct_credits cost user).1
          = .granted (check_and_deduct_credits cost user).2 ∧
      (check_and_deduct_credits cost user).2.credits_balance
          = user.credits_balance - cost ∧
      0 ≤ (check_and_deduct_credits cost user).2.credits_balance) ∧
    0 ≤ (check_and_deduct_credits cost user).2.credits_balance := by
  constructor
  · intro hlt
    simp [check_and_deduct_credits, hlt]
  constructor
  · intro hge
    have hnlt : ¬ user.credits_balance < cost := not_lt.mpr hge
    refine ⟨?_, ?_, ?_⟩
    · simp [check_and_deduct_credits, hnlt]
    · simp [check_and_deduct_credits, hnlt]
    · simp only [check_and_deduct_credits, if_neg hnlt]
      omega
  · by_cases hlt : user.credits_balance < cost
    · simpa [check_and_deduct_credits, hlt] using hnn
    · simp only [check_and_deduct_credits, if_neg hlt]
      simp only [not_lt] at hlt
      omega

/-- Witness for `check_and_deduct_credits_spec`: an account with balance 3
and cost 5 (the failure branch applies), evaluated concretely. -/
theorem check_and_deduct_credits_spec_witness :
    (0:Int) ≤ (3:Int) ∧
    ((3:Int) < 5 →
      check_and_deduct_credits 5 { id := 1, credits_balance := 3, is_active := true }
        = (.insufficientCredits 5 3 2,
           { id := 1, credits_balance := 3, is_active := true })) := by
  refine ⟨by norm_num, ?_⟩
  have h := check_and_deduct_credits_spec
    { id := 1, credits_balance := 3, is_active := true } 5 (by norm_num)
  intro _
  exact h.1 (by norm_num)

/-- C2: under the row lock, for every interleaving of concurrent reservation
attempts starting from balance `B ≥ 0`, the sum of committed deductions
never exceeds `B`, the balance stays non-negative, and at most one request
is inside the observe-and-decrement critical section at a time. -/
theorem concurrent_reservations_sound (B : Int) (costs : List Int)
    (s : LedgerSys) (hB : 0 ≤ B)
    (hreach : LedgerReach (ledgerInit B costs) s) :
    grantedSum s.threads ≤ B ∧ 0 ≤ s.balance ∧
    (∀ i j ti tj vi vj, s.threads.get? i = some ti →
       s.threads.get? j = some tj → ti.phase = .locked vi →
       tj.phase = .locked vj → i = j) := by
  have hinv := ledgerInv_reach B _ s hreach (ledgerInv_init B costs hB)
  obtain ⟨hnn, hbal, _, honly⟩ := hinv
  refine ⟨by omega, hnn, ?_⟩
  intro i j ti tj vi vj hgi hgj hpi hpj
  have h1 := honly i ti vi hgi hpi
  have h2 := honly j tj vj hgj hpj
  exact Option.some.inj (h1.symm.trans h2)

/-- Witness for `concurrent_reservations_sound`: three concurrent cost-5
requests against balance 10; after an actual interleaving in which the
first request acquires the lock and commits, the granted total is 5 ≤ 10. -/
theorem concurrent_reservations_sound_witness :
    (0:Int) ≤ 10 ∧
    ∃ s : LedgerSys, LedgerReach (ledgerInit 10 [5, 5, 5]) s ∧
      grantedSum s.threads ≤ 10 := by
  refine ⟨by norm_num, ?_⟩
  have hs1 : LedgerStep (ledgerInit 10 [5, 5, 5])
      { ledgerInit 10 [5, 5, 5] with
        lockHolder := some 0
        threads := (ledgerInit 10 [5, 5, 5]).threads.set 0
          { cost := 5, phase := .locked 10 } } := by
    exact LedgerStep.acquire _ 0 { cost := 5, phase := .start } rfl rfl rfl
  have hreach : LedgerReach (ledgerInit 10 [5, 5, 5])
      { ledgerInit 10 [5, 5, 5] with
        lockHolder := some 0
        threads := (ledgerInit 10 [5, 5, 5]).threads.set 0
          { cost := 5, phase := .locked 10 } } :=
    Relation.ReflTransGen.single hs1
  refine ⟨_, hreach, ?_⟩
  exact (concurrent_reservations_sound 10 [5, 5, 5] _ (by norm_num) hreach).1

/-!
The Celery executor, `app/tasks/scan_tasks.py`.

`perform_osint_scan` is registered with `max_retries=3`.  A collection
routine is an opaque unit of work; we model the behaviour of
`collector.collect(target)` on the attempt with retry count `r` as
`collect r : Except String ResultDict` — `ok` when the coroutine returns a
`CollectorResult` (business failures included: they are normal returns with
`success=False`), `error e` when it raises an unexpected exception whose
`str()` is `e`.
-/

/-- Python `str.lower()` on the collector-type string. -/
def pyLower (s : String) : String := ⟨s.data.map Char.toLower⟩

/-- The keys of `COLLECTOR_MAP` (`scan_tasks.py` lines 33-45). -/
def COLLECTOR_MAP : List String :=
  ["dns", "username", "metadata", "identity", "social", "crtsh", "whois",
   "shodan", "virustotal", "haveibeenpwned", "securitytrails"]

/-- `max_retries=3` from the `@celery_app.task` decorator. -/
def max_retries : Nat := 3

/-- The dictionaries the executor publishes on the event bus via
`publish_to_redis` (the `type` field selects the constructor; other
payload fields the claims need are carried as arguments). -/
inductive PubMsg
  | task_started
  | task_progress (progress : Nat)
  | task_retry (retry_count : Nat) (error : String)
  | task_error (error : ErrMsg) (result : Option ResultDict)
  | task_failed (error : ErrMsg) (result : Option ResultDict)
  | task_complete (result : ResultDict)
deriving DecidableEq, Repr

/-- The `status` field of each published dictionary, per `scan_tasks.py`. -/
def PubMsg.statusField : PubMsg → String
  | .task_started => "STARTED"
  | .task_progress _ => "PROCESSING"
  | .task_retry _ _ => "RETRY"
  | .task_error _ _ => "FAILURE"
  | .task_failed _ _ => "FAILURE"
  | .task_complete _ => "SUCCESS"

/-- The hand-built `error_result` dictionary of `scan_tasks.py`
(lines 276-285 and 318-330). -/
def error_result (collector_type target : String) (e : ErrMsg) : ResultDict :=
  { collector_name := collector_type
    target := target
    success := false
    error := some e }

/-- The body of `perform_osint_scan` (`scan_tasks.py` lines 132-341),
together with Celery's re-execution of it after `self.retry`.  Arguments:
current fuel (number of attempts Celery will still run; the initial call
has fuel `max_retries + 1`, which is never exhausted because the attempt
with `retries = max_retries` always returns) and the current value of
`self.request.retries`.  Returns (messages published to the bus in order,
the `countdown` passed to each `self.retry`, the value returned by the
task function — `some` means the task function returned normally, so
Celery fires `on_success`). -/
def perform_osint_scan (collector_type target : String)
    (collect : Nat → Except String ResultDict) :
    Nat → Nat → List PubMsg × List Nat × Option ResultDict
  | 0, _ => ([], [], none)
  | fuel + 1, retries =>
    let pre : List PubMsg := [.task_started, .task_progress 10]
    if COLLECTOR_MAP.contains (pyLower collector_type) then
      match collect retries with
      | .ok result =>
        (pre ++ [.task_progress 30, .task_progress 50, .task_progress 90],
         [], some result)
      | .error e =>
        let evs := pre ++ [.task_progress 30, .task_progress 50,
                           .task_retry retries e]
        if retries < max_retries then
          let rest := perform_osint_scan collector_type target collect fuel
            (retries + 1)
          (evs ++ rest.1, 2 ^ retries :: rest.2.1, rest.2.2)
        else
          (evs ++ [.task_failed (.maxRetriesExceeded e)
                     (some (error_result collector_type target
                        (.taskFailedAfterRetries max_retries e)))],
           [],
           some (error_result collector_type target
             (.taskFailedAfterRetries max_retries e)))
    else
      (pre ++ [.task_error (.unknownCollector collector_type) none,
               .task_error (.unknownCollector collector_type)
                 (some (error_result collector_type target
                    (.unknownCollector collector_type)))],
       [],
       some (error_result collector_type target
         (.unknownCollector collector_type)))

/-- `OSINTScanTask.on_success` (`scan_tasks.py` lines 73-96): publish the
`task_complete` message, then durably update the scan log to SUCCESS with
the returned value as result snapshot (error message argument omitted,
i.e. None). -/
def on_success (db : List ScanHistory) (task_id : String)
    (retval : ResultDict) (now : Nat) : List PubMsg × List ScanHistory :=
  ([.task_complete retval],
   (update_scan_log db task_id ScanStatus.SUCCESS (some retval) none now).2)

/-- `OSINTScanTask.on_failure` (`scan_tasks.py` lines 98-122): publish a
`task_failed` message, then durably update the scan log to FAILED with the
exception text (result snapshot argument omitted, i.e. None).  Celery only
invokes this hook when the task body raises; every exception path of
`perform_osint_scan` is caught, so the scan task never reaches it. -/
def on_failure (db : List ScanHistory) (task_id : String) (exc : ErrMsg)
    (now : Nat) : List PubMsg × List ScanHistory :=
  ([.task_failed exc none],
   (update_scan_log db task_id ScanStatus.FAILED none (some exc) now).2)

/-- A full broker delivery: run the task body (fuel `max_retries + 1`,
initial retry count 0, exactly Celery's schedule), then fire the
appropriate completion hook.  Returns (published messages in order,
retry countdowns, the record store after the terminal transition). -/
def celery_execute (db : List ScanHistory)
    (task_id collector_type target : String)
    (collect : Nat → Except String ResultDict) (now : Nat) :
    List PubMsg × List Nat × List ScanHistory :=
  let run := perform_osint_scan collector_type target collect
    (max_retries + 1) 0
  match run.2.2 with
  | some retval =>
    let h := on_success db task_id retval now
    (run.1 ++ h.1, run.2.1, h.2)
  | none => (run.1, run.2.1, db)

/-!
The live notification gateway, `app/core/socket_manager.py`.

Connections are identified by naturals; `sendOk ws m` says whether
`websocket.send_json(m)` succeeds for connection `ws` (the model of a
write failing on a broken connection).  The per-task subscriber set
`self.active_connections[task_id]` is modelled as a duplicate-free list.
-/

/-- Membership test used when modelling `set.discard`. -/
def elemB (w : Nat) : List Nat → Bool
  | [] => false
  | x :: xs => (x == w) || elemB w xs

/-- Removing one connection from a subscriber set (`set.discard`). -/
def removeConn (subs : List Nat) (ws : Nat) : List Nat :=
  subs.filter fun w => !(ws == w)

/-- The cleanup loop at the end of `broadcast` (lines 173-175): disconnect
each failed connection in turn. -/
def removeAllConns : List Nat → List Nat → List Nat
  | subs, [] => subs
  | subs, ws :: rest => removeAllConns (removeConn subs ws) rest

/-- The send loop of `ConnectionManager.broadcast` (lines 164-171): try
every connection in the snapshot; collect the ones whose write failed.
Returns (connections that received the message, failed connections). -/
def broadcastLoop (sendOk : Nat → PubMsg → Bool) (message : PubMsg) :
    List Nat → List Nat × List Nat
  | [] => ([], [])
  | ws :: rest =>
    let r := broadcastLoop sendOk message rest
    if sendOk ws message then (ws :: r.1, r.2) else (r.1, ws :: r.2)

/-- `ConnectionManager.broadcast` (lines 149-175) for one task: send to a
snapshot of the subscriber set, then disconnect exactly the failed
connections.  Returns (connections that received the message, the
subscriber set afterwards). -/
def broadcast (subs : List Nat) (sendOk : Nat → PubMsg → Bool)
    (message : PubMsg) : List Nat × List Nat :=
  let r := broadcastLoop sendOk message subs
  (r.1, removeAllConns subs r.2)

/-- The message loop of `ConnectionManager._redis_listener`
(lines 112-134): broadcast each received message in order; stop after a
message whose `status` field is SUCCESS or FAILURE.  Returns (subscriber
set when the loop ends, the delivery log — pairs (connection, message) in
the order the sends happened). -/
def redis_listener (subs : List Nat) (sendOk : Nat → PubMsg → Bool) :
    List PubMsg → List Nat × List (Nat × PubMsg)
  | [] => (subs, [])
  | m :: ms =>
    let d := broadcast subs sendOk m
    let log := d.1.map fun ws => (ws, m)
    if m.statusField = "SUCCESS" ∨ m.statusField = "FAILURE" then
      (d.1, log)
    else
      let rest := redis_listener d.1 sendOk ms
      (rest.1, log ++ rest.2)

/-- The messages a given connection received, in delivery order. -/
def receivedBy (ws : Nat) (log : List (Nat × PubMsg)) : List PubMsg :=
  (log.filter fun p => p.1 == ws).map Prod.snd

/-- A task execution followed by gateway fan-out: run the broker delivery,
feed every published message through the listener loop.  The durable
record store (third component) is produced before and independently of
any fan-out. -/
def celery_execute_with_gateway (subs : List Nat)
    (sendOk : Nat → PubMsg → Bool) (db : List ScanHistory)
    (task_id collector_type target : String)
    (collect : Nat → Except String ResultDict) (now : Nat) :
    (List Nat × List (Nat × PubMsg)) × List Nat × List ScanHistory :=
  let run := celery_execute db task_id collector_type target collect now
  (redis_listener subs sendOk run.1, run.2.1, run.2.2)

/-- The state of `ConnectionManager` relevant to connect/disconnect:
`active_connections` is the per-task dictionary of subscriber sets,
`listener_tasks` maps a task id to the handle of its background listener
task, `cancelled` records every handle on which `.cancel()` was called. -/
structure ConnectionManager where
  active_connections : String → Option (List Nat)
  listener_tasks : String → Option Nat
  cancelled : List Nat

/-- `ConnectionManager.disconnect` (`socket_manager.py` lines 69-91):
discard the connection from the task's set; if the set became empty,
delete the map entry, cancel the task's Redis listener (when one is
registered) and delete it.  The method never consults the task's scan
status, so the cleanup also runs for tasks that have not reached a
terminal state. -/
def ConnectionManager.disconnect (m : ConnectionManager) (ws : Nat)
    (task_id : String) : ConnectionManager :=
  match m.active_connections task_id with
  | none => m
  | some conns =>
    let conns' := removeConn conns ws
    if conns'.isEmpty then
      { active_connections := fun t =>
          if t = task_id then none else m.active_connections t
        listener_tasks := fun t =>
          if t = task_id then none else m.listener_tasks t
        cancelled :=
          match m.listener_tasks task_id with
          | some h => h :: m.cancelled
          | none => m.cancelled }
    else
      { m with active_connections := fun t =>
          if t = task_id then some conns' else m.active_connections t }

/-!
The audit / history query surface, `app/services/history_service.py` and
`app/routers/history.py`.
-/

/-- `get_scan_by_id` (`history_service.py` lines 179-205): first row whose
id matches AND whose `user_id` is the requester's. -/
def get_scan_by_id (db : List ScanHistory) (scan_id : String)
    (user_id : Nat) : Option ScanHistory :=
  db.find? fun r => r.id == scan_id && r.user_id == user_id

/-- Caller-visible outcome of `GET /history/(scan_id)`
(`routers/history.py` lines 189-211): a 404 whose detail interpolates only
`scan_id`, or the record. -/
inductive DetailResult
  | notFound (scan_id : String)
  | found (scan : ScanHistory)
deriving DecidableEq, Repr

/-- `get_scan_details`: ownership-checked lookup; `None` becomes the 404. -/
def get_scan_details (db : List ScanHistory) (scan_id : String)
    (user_id : Nat) : DetailResult :=
  match get_scan_by_id db scan_id user_id with
  | none => .notFound scan_id
  | some s => .found s

/-- Caller-visible outcome of `DELETE /history/(scan_id)`
(`routers/history.py` lines 265-316). -/
inductive DeleteResult
  | notFound (scan_id : String)
  | deleted (scan_id : String)
deriving DecidableEq, Repr

/-- `delete_scan_history`: ownership-checked lookup; on a hit the row is
deleted and committed, otherwise the same 404 as the detail endpoint.
Returns (outcome, the store afterwards). -/
def delete_scan_history (db : List ScanHistory) (scan_id : String)
    (user_id : Nat) : DeleteResult × List ScanHistory :=
  match get_scan_by_id db scan_id user_id with
  | none => (.notFound scan_id, db)
  | some s => (.deleted scan_id, db.filter fun r => !(r.id == s.id))

/-! Lemmas about the record store. -/

theorem update_scan_log_not_found (db : List ScanHistory) (tid : String)
    (st : ScanStatus) (rs : Option ResultDict) (em : Option ErrMsg)
    (now : Nat) (h : ∀ r ∈ db, r.task_id ≠ tid) :
    update_scan_log db tid st rs em now = (none, db) := by
  induction db with
  | nil => rfl
  | cons r rest ih =>
    have hr : ¬ r.task_id = tid := h r (by simp)
    have hrest := ih fun x hx => h x (by simp [hx])
    simp [update_scan_log, hr, hrest]

theorem update_scan_log_some (db : List ScanHistory) (tid : String)
    (st : ScanStatus) (rs : Option ResultDict) (em : Option ErrMsg)
    (now : Nat) (r' : ScanHistory)
    (h : (update_scan_log db tid st rs em now).1 = some r') :
    ∃ r, r ∈ db ∧ r.task_id = tid ∧ r' = applyUpdate r st rs em now := by
  induction db with
  | nil => simp [update_scan_log] at h
  | cons r rest ih =>
    by_cases hr : r.task_id = tid
    · refine ⟨r, by simp, hr, ?_⟩
      simp only [update_scan_log, if_pos hr] at h
      exact (Option.some.inj h).symm
    · simp only [update_scan_log, if_neg hr] at h
      obtain ⟨x, hx, hxt, hxe⟩ := ih h
      exact ⟨x, by simp [hx], hxt, hxe⟩

theorem update_scan_log_found (db : List ScanHistory) (tid : String)
    (st : ScanStatus) (rs : Option ResultDict) (em : Option ErrMsg)
    (now : Nat) (h : ∃ r ∈ db, r.task_id = tid) :
    ∃ r, r ∈ db ∧ r.task_id = tid ∧
      (update_scan_log db tid st rs em now).1
        = some (applyUpdate r st rs em now) ∧
      applyUpdate r st rs em now ∈ (update_scan_log db tid st rs em now).2 := by
  induction db with
  | nil =>
    obtain ⟨r, hr, _⟩ := h
    cases hr
  | cons x rest ih =>
    by_cases hx : x.task_id = tid
    · refine ⟨x, by simp, hx, ?_, ?_⟩
      · simp [update_scan_log, if_pos hx]
      · simp [update_scan_log, if_pos hx]
    · have h' : ∃ r ∈ rest, r.task_id = tid := by
        obtain ⟨r, hr, ht⟩ := h
        rcases List.mem_cons.mp hr with hrx | hrr
        · exact absurd (hrx ▸ ht) hx
        · exact ⟨r, hrr, ht⟩
      obtain ⟨r, hr, ht, h1, h2⟩ := ih h'
      refine ⟨r, by simp [hr], ht, ?_, ?_⟩
      · simp [update_scan_log, if_neg hx, h1]
      · simp only [update_scan_log, if_neg hx]
        exact List.mem_cons.mpr (Or.inr h2)

/-! Concrete rows and collectors shared by the evaluation theorems. -/

/-- A successful DNS collection result. -/
def res1 : ResultDict :=
  { collector_name := "DNSCollector", target := "example.com",
    success := true, error := none }

/-- A fresh PENDING scan-log row awaiting task `celery-1`. -/
def rec1 : ScanHistory :=
  { id := "scan-1", user_id := 1, target := "example.com",
    scan_type := "dns", status := ScanStatus.PENDING,
    task_id := "celery-1", result_snapshot := none, error_message := none,
    performed_at := 1, completed_at := none }

/-- A row already in the terminal SUCCESS state, completed at time 5. -/
def rec2 : ScanHistory :=
  { id := "scan-2", user_id := 1, target := "example.com",
    scan_type := "dns", status := ScanStatus.SUCCESS,
    task_id := "celery-2", result_snapshot := some res1,
    error_message := none, performed_at := 1, completed_at := some 5 }

/-- A PENDING row for the unknown-collector scenario. -/
def rec3 : ScanHistory :=
  { id := "scan-3", user_id := 1, target := "example.com",
    scan_type := "doesnotexist", status := ScanStatus.PENDING,
    task_id := "celery-3", result_snapshot := none, error_message := none,
    performed_at := 1, completed_at := none }

/-- A PENDING row for the retries-exhausted scenario. -/
def rec4 : ScanHistory :=
  { id := "scan-4", user_id := 1, target := "example.com",
    scan_type := "dns", status := ScanStatus.PENDING,
    task_id := "celery-4", result_snapshot := none, error_message := none,
    performed_at := 1, completed_at := none }

/-- A collection routine that succeeds on every attempt. -/
def collectOk : Nat → Except String ResultDict := fun _ => .ok res1

/-- A collection routine that raises `ConnectionError` on every attempt. -/
def collectBoom : Nat → Except String ResultDict :=
  fun _ => .error "ConnectionError"

/-- Claim C10 — updating the scan log for an unknown task identifier
returns None and leaves the store unchanged; when a record is found the
update always sets its completion timestamp and overwrites its status,
and preserves the result snapshot and the error message whenever the
corresponding argument is None. -/
theorem update_scan_log_spec (db : List ScanHistory) (tid : String)
    (st : ScanStatus) (rs : Option ResultDict) (em : Option ErrMsg)
    (now : Nat) :
    ((∀ r ∈ db, r.task_id ≠ tid) →
       update_scan_log db tid st rs em now = (none, db)) ∧
    (∀ r', (update_scan_log db tid st rs em now).1 = some r' →
       r'.status = st ∧ r'.completed_at = some now ∧
       ∃ r, r ∈ db ∧ r.task_id = tid ∧
         (rs = none → r'.result_snapshot = r.result_snapshot) ∧
         (em = none → r'.error_message = r.error_message)) := by
  constructor
  · exact update_scan_log_not_found db tid st rs em now
  · intro r' h
    obtain ⟨r, hr, ht, he⟩ := update_scan_log_some db tid st rs em now r' h
    subst he
    refine ⟨rfl, rfl, r, hr, ht, ?_, ?_⟩
    · rintro rfl
      rfl
    · rintro rfl
      rfl

/-- Witness for `update_scan_log_spec`: both branches evaluated on a
one-row store. -/
theorem update_scan_log_spec_witness :
    update_scan_log [rec1] "no-such-task" ScanStatus.SUCCESS (some res1)
        none 5 = (none, [rec1]) ∧
    (applyUpdate rec1 ScanStatus.SUCCESS (some res1) none 5).status
        = ScanStatus.SUCCESS := by
  constructor
  · exact (update_scan_log_spec [rec1] "no-such-task" ScanStatus.SUCCESS
      (some res1) none 5).1 (by decide)
  · exact ((update_scan_log_spec [rec1] "celery-1" ScanStatus.SUCCESS
      (some res1) none 5).2 (applyUpdate rec1 ScanStatus.SUCCESS (some res1)
        none 5) (by decide)).1

/-- Claim C6 counterexample — `rec2` is already terminal (SUCCESS,
completed at time 5); a second delivery of the same success message at
time 6 re-runs `on_success`, and the store is mutated (the completion
timestamp is refreshed), so "performs no further mutation" is false. -/
theorem duplicate_delivery_mutates :
    (on_success [rec2] "celery-2" res1 6).2 ≠ [rec2] := by
  decide

/-- Claim C6 as amended — `update_scan_log` has no terminal-state guard:
a second delivery re-applies the update to the already-terminal record,
overwriting its status with the newly delivered status and refreshing its
completion timestamp to the second delivery time; only the result
snapshot and the error message are preserved (when the corresponding
arguments are None). -/
theorem update_scan_log_reapplies (r : ScanHistory)
    (rest : List ScanHistory) (tid : String) (st : ScanStatus)
    (rs : Option ResultDict) (em : Option ErrMsg) (now : Nat)
    (hterm : r.status.isTerminal = true) (htid : r.task_id = tid) :
    update_scan_log (r :: rest) tid st rs em now
      = (some (applyUpdate r st rs em now),
         applyUpdate r st rs em now :: rest) ∧
    (applyUpdate r st rs em now).status = st ∧
    (applyUpdate r st rs em now).completed_at = some now ∧
    (rs = none →
      (applyUpdate r st rs em now).result_snapshot = r.result_snapshot) ∧
    (em = none →
      (applyUpdate r st rs em now).error_message = r.error_message) := by
  refine ⟨?_, rfl, rfl, ?_, ?_⟩
  · simp [update_scan_log, htid]
  · rintro rfl
    rfl
  · rintro rfl
    rfl

/-- Witness for `update_scan_log_reapplies`: the terminal row `rec2`
receives a duplicate SUCCESS update at time 6. -/
theorem update_scan_log_reapplies_witness :
    rec2.status.isTerminal = true ∧
    update_scan_log [rec2] "celery-2" ScanStatus.SUCCESS (some res1) none 6
      = (some (applyUpdate rec2 ScanStatus.SUCCESS (some res1) none 6),
         [applyUpdate rec2 ScanStatus.SUCCESS (some res1) none 6]) := by
  refine ⟨by decide, ?_⟩
  exact (update_scan_log_reapplies rec2 [] "celery-2" ScanStatus.SUCCESS
    (some res1) none 6 (by decide) (by decide)).1

/-- Claim C5 — when the collection routine completes successfully on the
first attempt, the broker delivery durably updates the matching task
record to SUCCESS with a non-null result snapshot and a non-null
completion timestamp, and the resulting record store is the same whatever
the subscriber set of the event bus is (in particular when it is empty). -/
theorem success_durable_update (subs : List Nat)
    (sendOk : Nat → PubMsg → Bool) (db : List ScanHistory)
    (task_id collector_type target : String)
    (collect : Nat → Except String ResultDict) (now : Nat)
    (res : ResultDict) (hok : collect 0 = .ok res)
    (hknown : COLLECTOR_MAP.contains (pyLower collector_type) = true)
    (hex : ∃ r ∈ db, r.task_id = task_id) :
    ∃ r, r ∈ db ∧ r.task_id = task_id ∧
      applyUpdate r ScanStatus.SUCCESS (some res) none now
        ∈ (celery_execute_with_gateway subs sendOk db task_id
             collector_type target collect now).2.2 ∧
      (applyUpdate r ScanStatus.SUCCESS (some res) none now).status
        = ScanStatus.SUCCESS ∧
      (applyUpdate r ScanStatus.SUCCESS (some res) none now).result_snapshot
        = some res ∧
      (applyUpdate r ScanStatus.SUCCESS (some res) none now).completed_at
        = some now ∧
      (celery_execute_with_gateway subs sendOk db task_id collector_type
         target collect now).2.2
        = (celery_execute_with_gateway [] sendOk db task_id collector_type
             target collect now).2.2 := by
  have hrun : perform_osint_scan collector_type target collect
      (max_retries + 1) 0
      = ([.task_started, .task_progress 10] ++
          [.task_progress 30, .task_progress 50, .task_progress 90],
         [], some res) := by
    have hmem : pyLower collector_type ∈ COLLECTOR_MAP :=
      List.mem_of_elem_eq_true hknown
    simp [perform_osint_scan, hok, hmem]
  have hstore : (celery_execute db task_id collector_type target collect
      now).2.2
      = (update_scan_log db task_id ScanStatus.SUCCESS (some res) none
          now).2 := by
    simp [celery_execute, hrun, on_success]
  obtain ⟨r, hr, ht, _, h2⟩ := update_scan_log_found db task_id
    ScanStatus.SUCCESS (some res) none now hex
  refine ⟨r, hr, ht, ?_, rfl, rfl, rfl, rfl⟩
  show applyUpdate r ScanStatus.SUCCESS (some res) none now
    ∈ (celery_execute db task_id collector_type target collect now).2.2
  rw [hstore]
  exact h2

/-- Witness for `success_durable_update`: one PENDING row, the `dns`
collector succeeding immediately, an empty subscriber set. -/
theorem success_durable_update_witness :
    collectOk 0 = Except.ok res1 ∧
    ∃ r, r ∈ [rec1] ∧ r.task_id = "celery-1" ∧
      applyUpdate r ScanStatus.SUCCESS (some res1) none 5
        ∈ (celery_execute_with_gateway [] (fun _ _ => true) [rec1]
             "celery-1" "dns" "example.com" collectOk 5).2.2 ∧
      (applyUpdate r ScanStatus.SUCCESS (some res1) none 5).status
        = ScanStatus.SUCCESS ∧
      (applyUpdate r ScanStatus.SUCCESS (some res1) none 5).result_snapshot
        = some res1 ∧
      (applyUpdate r ScanStatus.SUCCESS (some res1) none 5).completed_at
        = some 5 ∧
      (celery_execute_with_gateway [] (fun _ _ => true) [rec1] "celery-1"
         "dns" "example.com" collectOk 5).2.2
        = (celery_execute_with_gateway [] (fun _ _ => true) [rec1]
             "celery-1" "dns" "example.com" collectOk 5).2.2 := by
  refine ⟨rfl, ?_⟩
  exact success_durable_update [] (fun _ _ => true) [rec1] "celery-1" "dns"
    "example.com" collectOk 5 res1 rfl (by decide) (by decide)

/-- Claim C3, evaluated at the failing input (code bug): submitting the
unknown routine name doesnotexist schedules no retry and emits no retry
event — that part of the claim holds — but the task body catches its own
ValueError and RETURNS the error dictionary, so Celery fires `on_success`
and the durable record ends in status SUCCESS (with the error, naming the
routine, only inside the result snapshot and with `error_message` still
None), not in the claimed terminal status FAILED. -/
theorem unknown_collector_divergence :
    (celery_execute [rec3] "celery-3" "doesnotexist" "example.com"
        collectOk 7).2.1 = [] ∧
    ((celery_execute [rec3] "celery-3" "doesnotexist" "example.com"
        collectOk 7).1.all fun m =>
        match m with
        | PubMsg.task_retry _ _ => false
        | _ => true) = true ∧
    (celery_execute [rec3] "celery-3" "doesnotexist" "example.com"
        collectOk 7).2.2
      = [{ rec3 with
            status := ScanStatus.SUCCESS
            completed_at := some 7
            result_snapshot := some (error_result "doesnotexist"
              "example.com" (ErrMsg.unknownCollector "doesnotexist")) }] := by
  refine ⟨rfl, rfl, ?_⟩
  decide

/-- Claim C4, evaluated at the failing input (code bug): a routine that
raises `ConnectionError` on every attempt is retried exactly 3 times with
countdowns 2^0, 2^1, 2^2, a retry event carrying the current retry count
is published before each retry, and a final `task_failed` event is
published — those parts of the claim hold — but after the ceiling the
task body RETURNS the error dictionary, so Celery fires `on_success` and
the durable record ends in status SUCCESS (the retries-exhausted message
only inside the result snapshot), not in the claimed terminal status
FAILED. -/
theorem retries_exhausted_divergence :
    (celery_execute [rec4] "celery-4" "dns" "example.com" collectBoom
        9).2.1 = [1, 2, 4] ∧
    ((celery_execute [rec4] "celery-4" "dns" "example.com" collectBoom
        9).1.filter fun m =>
        match m with
        | PubMsg.task_retry _ _ => true
        | _ => false)
      = [PubMsg.task_retry 0 "ConnectionError",
         PubMsg.task_retry 1 "ConnectionError",
         PubMsg.task_retry 2 "ConnectionError",
         PubMsg.task_retry 3 "ConnectionError"] ∧
    PubMsg.task_failed (ErrMsg.maxRetriesExceeded "ConnectionError")
        (some (error_result "dns" "example.com"
          (ErrMsg.taskFailedAfterRetries 3 "ConnectionError")))
      ∈ (celery_execute [rec4] "celery-4" "dns" "example.com" collectBoom
          9).1 ∧
    (celery_execute [rec4] "celery-4" "dns" "example.com" collectBoom
        9).2.2
      = [{ rec4 with
            status := ScanStatus.SUCCESS
            completed_at := some 9
            result_snapshot := some (error_result "dns" "example.com"
              (ErrMsg.taskFailedAfterRetries 3 "ConnectionError")) }] := by
  refine ⟨rfl, rfl, ?_, ?_⟩
  · decide
  · decide

/-! Lemmas about the gateway fan-out. -/

theorem elemB_eq_true (w : Nat) (l : List Nat) :
    elemB w l = true ↔ w ∈ l := by
  induction l with
  | nil => simp [elemB]
  | cons x xs ih =>
    simp only [elemB, List.mem_cons, Bool.or_eq_true, beq_iff_eq, ih]
    constructor
    · rintro (rfl | h)
      · exact Or.inl rfl
      · exact Or.inr h
    · rintro (rfl | h)
      · exact Or.inl rfl
      · exact Or.inr h

theorem broadcastLoop_fst (sendOk : Nat → PubMsg → Bool) (m : PubMsg) :
    ∀ subs : List Nat,
      (broadcastLoop sendOk m subs).1 = subs.filter fun w => sendOk w m
  | [] => rfl
  | ws :: rest => by
    simp only [broadcastLoop, List.filter]
    rw [← broadcastLoop_fst sendOk m rest]
    cases h : sendOk ws m <;> simp [h]

theorem broadcastLoop_snd (sendOk : Nat → PubMsg → Bool) (m : PubMsg) :
    ∀ subs : List Nat,
      (broadcastLoop sendOk m subs).2
        = subs.filter fun w => !(sendOk w m)
  | [] => rfl
  | ws :: rest => by
    simp only [broadcastLoop, List.filter]
    rw [← broadcastLoop_snd sendOk m rest]
    cases h : sendOk ws m <;> simp [h]

theorem removeAllConns_filter :
    ∀ (l subs : List Nat),
      removeAllConns subs l = subs.filter fun w => !(elemB w l)
  | [], subs => by
    simp [removeAllConns, elemB]
  | ws :: rest, subs => by
    simp only [removeAllConns]
    rw [removeAllConns_filter rest (removeConn subs ws), removeConn,
      List.filter_filter]
    apply List.filter_congr
    intro w _
    simp only [elemB, Bool.not_or]
    cases h1 : (ws == w) <;> cases h2 : elemB w rest <;> simp [h1, h2]

/-- The subscriber set after `broadcast`: exactly the connections whose
write succeeded survive — delivery failure removes only the failing
connections. -/
theorem broadcast_subs (subs : List Nat) (sendOk : Nat → PubMsg → Bool)
    (m : PubMsg) :
    (broadcast subs sendOk m).2 = subs.filter fun w => sendOk w m := by
  simp only [broadcast]
  rw [removeAllConns_filter, broadcastLoop_snd]
  apply List.filter_congr
  intro w hw
  cases h : sendOk w m
  · have hmem : w ∈ subs.filter fun x => !(sendOk x m) :=
      List.mem_filter.mpr ⟨hw, by simp [h]⟩
    simp [(elemB_eq_true w _).mpr hmem]
  · have hmem : w ∉ subs.filter fun x => !(sendOk x m) := by
      intro hc
      have := (List.mem_filter.mp hc).2
      simp [h] at this
    cases he : elemB w (subs.filter fun x => !(sendOk x m))
    · simp
    · exact absurd ((elemB_eq_true w _).mp he) hmem

/-- The connections `broadcast` delivered to: every connection in the
snapshot whose write succeeded, whatever happened to the others. -/
theorem broadcast_received (subs : List Nat)
    (sendOk : Nat → PubMsg → Bool) (m : PubMsg) :
    (broadcast subs sendOk m).1 = subs.filter fun w => sendOk w m :=
  broadcastLoop_fst sendOk m subs

theorem receivedBy_append (ws : Nat) (a b : List (Nat × PubMsg)) :
    receivedBy ws (a ++ b) = receivedBy ws a ++ receivedBy ws b := by
  simp [receivedBy, List.filter_append]

theorem receivedBy_map_of_not_mem (ws : Nat) (m : PubMsg)
    (d : List Nat) (h : ws ∉ d) :
    receivedBy ws (d.map fun w => (w, m)) = [] := by
  induction d with
  | nil => rfl
  | cons x xs ih =>
    have hx : ¬ x = ws := fun he => h (by simp [he])
    have hxs : ws ∉ xs := fun hc => h (by simp [hc])
    simp only [List.map, receivedBy, List.filter]
    have hb : (x == ws) = false := beq_eq_false_iff_ne.mpr hx
    simp only [hb]
    exact ih hxs

theorem receivedBy_map_of_mem (ws : Nat) (m : PubMsg) (d : List Nat)
    (hnd : d.Nodup) (h : ws ∈ d) :
    receivedBy ws (d.map fun w => (w, m)) = [m] := by
  induction d with
  | nil => cases h
  | cons x xs ih =>
    rcases List.nodup_cons.mp hnd with ⟨hx, hxs⟩
    rcases List.mem_cons.mp h with rfl | hmem
    · simp only [List.map, receivedBy, List.filter, beq_self_eq_true]
      have : receivedBy ws (xs.map fun w => (w, m)) = [] :=
        receivedBy_map_of_not_mem ws m xs hx
      simp only [receivedBy] at this
      simp [this]
    · have hxws : ¬ x = ws := by
        rintro rfl
        exact hx hmem
      simp only [List.map, receivedBy, List.filter]
      have hb : (x == ws) = false := beq_eq_false_iff_ne.mpr hxws
      simp only [hb]
      exact ih hxs hmem

/-- A connection that stays healthy receives, from the listener loop, the
full published sequence in emission order (for streams in which only the
final message is terminal, matching the executor's output). -/
theorem redis_listener_received (sendOk : Nat → PubMsg → Bool) :
    ∀ (events : List PubMsg) (subs : List Nat) (ws : Nat),
      subs.Nodup → ws ∈ subs → (∀ m, sendOk ws m = true) →
      (∀ m ∈ events.dropLast,
        ¬(m.statusField = "SUCCESS" ∨ m.statusField = "FAILURE")) →
      receivedBy ws (redis_listener subs sendOk events).2 = events
  | [], subs, ws => by
    intro _ _ _ _
    simp [redis_listener, receivedBy]
  | m :: ms, subs, ws => by
    intro hnd hmem hok hterm
    have hd1 : (broadcast subs sendOk m).1
        = subs.filter fun w => sendOk w m := broadcast_received subs sendOk m
    have hmem1 : ws ∈ (broadcast subs sendOk m).1 := by
      rw [hd1]
      exact List.mem_filter.mpr ⟨hmem, hok m⟩
    have hnd1 : (broadcast subs sendOk m).1.Nodup := by
      rw [hd1]
      exact hnd.filter _
    by_cases ht : m.statusField = "SUCCESS" ∨ m.statusField = "FAILURE"
    · have hms : ms = [] := by
        cases ms with
        | nil => rfl
        | cons y ys =>
          exact absurd ht (hterm m (by simp [List.dropLast]))
      subst hms
      simp only [redis_listener, if_pos ht]
      exact receivedBy_map_of_mem ws m _ hnd1 hmem1
    · simp only [redis_listener, if_neg ht]
      rw [receivedBy_append, receivedBy_map_of_mem ws m _ hnd1 hmem1]
      rw [redis_listener_received sendOk ms _ ws hnd1 hmem1 hok ?_]
      · rfl
      · intro m' hm' hcon
        refine hterm m' ?_ hcon
        cases ms with
        | nil => cases hm'
        | cons y ys => simp [List.dropLast, hm']

/-- Claim C7 — for every message published while subscribers are
registered: a subscriber whose writes succeed receives the whole event
stream in emission order; a subscriber whose write succeeds receives the
message even when writes to other connections fail; and a delivery
failure removes exactly the failing connections from the subscriber set,
never aborting delivery to the rest. -/
theorem fanout_delivery (subs : List Nat) (sendOk : Nat → PubMsg → Bool)
    (events : List PubMsg) (ws : Nat) (m : PubMsg) (hnd : subs.Nodup) :
    (ws ∈ subs → (∀ m', sendOk ws m' = true) →
      (∀ m' ∈ events.dropLast,
        ¬(m'.statusField = "SUCCESS" ∨ m'.statusField = "FAILURE")) →
      receivedBy ws (redis_listener subs sendOk events).2 = events) ∧
    (ws ∈ subs → sendOk ws m = true →
      ws ∈ (broadcast subs sendOk m).1) ∧
    (broadcast subs sendOk m).2 = subs.filter (fun w => sendOk w m) := by
  refine ⟨?_, ?_, broadcast_subs subs sendOk m⟩
  · intro hmem hok hterm
    exact redis_listener_received sendOk events subs ws hnd hmem hok hterm
  · intro hmem hok
    rw [broadcast_received]
    exact List.mem_filter.mpr ⟨hmem, hok⟩

/-- The subscriber set for the fan-out witness: connections 1 and 2. -/
def subs0 : List Nat := [1, 2]

/-- Writes to connection 2 fail; every other write succeeds. -/
def sendOk0 : Nat → PubMsg → Bool := fun w _ => !(w == 2)

/-- A progress message followed by the terminal completion message. -/
def events0 : List PubMsg := [PubMsg.task_started, PubMsg.task_complete res1]

/-- Witness for `fanout_delivery`: connection 1 (healthy) receives both
events in order even though connection 2's write fails, and connection 2
is the only connection removed. -/
theorem fanout_delivery_witness :
    receivedBy 1 (redis_listener subs0 sendOk0 events0).2 = events0 ∧
    1 ∈ (broadcast subs0 sendOk0 PubMsg.task_started).1 ∧
    (broadcast subs0 sendOk0 PubMsg.task_started).2
      = subs0.filter (fun w => sendOk0 w PubMsg.task_started) := by
  have h := fanout_delivery subs0 sendOk0 events0 1 PubMsg.task_started
    (by decide)
  exact ⟨h.1 (by decide) (fun _ => rfl) (by decide),
         h.2.1 (by decide) rfl, h.2.2⟩

/-- Claim C8 — after the disconnect that removes a task's last remaining
subscriber, the task has no entry in the per-task connection map, no
entry in the listener-task map, and its background listener (when one was
registered) has been cancelled.  `ConnectionManager.disconnect` never
consults the task's scan status, so this holds whether or not the task
has reached a terminal state. -/
theorem disconnect_last_subscriber (m : ConnectionManager) (ws : Nat)
    (task_id : String)
    (hconns : m.active_connections task_id = some [ws]) :
    (m.disconnect ws task_id).active_connections task_id = none ∧
    (m.disconnect ws task_id).listener_tasks task_id = none ∧
    (∀ h, m.listener_tasks task_id = some h →
      h ∈ (m.disconnect ws task_id).cancelled) := by
  have hrem : removeConn [ws] ws = [] := by simp [removeConn]
  simp only [ConnectionManager.disconnect, hconns, hrem, List.isEmpty_nil,
    if_true]
  refine ⟨by simp, by simp, ?_⟩
  intro h heq
  rw [heq]
  simp

/-- A manager with one subscriber (connection 3) and one registered
listener (handle 42) for `task-9`. -/
def mgr0 : ConnectionManager :=
  { active_connections := fun t => if t = "task-9" then some [3] else none
    listener_tasks := fun t => if t = "task-9" then some 42 else none
    cancelled := [] }

/-- Witness for `disconnect_last_subscriber`: disconnecting connection 3
from `task-9` in `mgr0`. -/
theorem disconnect_last_subscriber_witness :
    mgr0.active_connections "task-9" = some [3] ∧
    (mgr0.disconnect 3 "task-9").active_connections "task-9" = none ∧
    (mgr0.disconnect 3 "task-9").listener_tasks "task-9" = none ∧
    42 ∈ (mgr0.disconnect 3 "task-9").cancelled := by
  have h := disconnect_last_subscriber mgr0 3 "task-9" (by simp [mgr0])
  exact ⟨by simp [mgr0], h.1, h.2.1, h.2.2 42 (by simp [mgr0])⟩

/-- Claim C9 — for the history detail and delete endpoints, absence of the
requested record and presence under a different owner produce the
identical caller-visible outcome: the same 404 (whose detail depends only
on the requested id), with the store untouched by the delete. -/
theorem notfound_indistinguishable (db : List ScanHistory)
    (scan_id : String) (user_id : Nat)
    (h : ∀ r ∈ db, r.id = scan_id → r.user_id ≠ user_id) :
    get_scan_details db scan_id user_id = .notFound scan_id ∧
    delete_scan_history db scan_id user_id = (.notFound scan_id, db) := by
  have hfind : get_scan_by_id db scan_id user_id = none := by
    rw [get_scan_by_id, List.find?_eq_none]
    intro r hr hp
    rw [Bool.and_eq_true, beq_iff_eq, beq_iff_eq] at hp
    exact h r hr hp.1 hp.2
  constructor
  · simp [get_scan_details, hfind]
  · simp [delete_scan_history, hfind]

/-- A record owned by account 2, to be requested by account 1. -/
def recOther : ScanHistory :=
  { id := "scan-5", user_id := 2, target := "example.org",
    scan_type := "dns", status := ScanStatus.SUCCESS,
    task_id := "celery-5", result_snapshot := some res1,
    error_message := none, performed_at := 1, completed_at := some 5 }

/-- Witness for `notfound_indistinguishable`: account 1 requesting
`scan-5` gets the same 404 whether the record is owned by account 2 or
does not exist at all. -/
theorem notfound_indistinguishable_witness :
    (get_scan_details [recOther] "scan-5" 1
        = DetailResult.notFound "scan-5" ∧
      delete_scan_history [recOther] "scan-5" 1
        = (DeleteResult.notFound "scan-5", [recOther])) ∧
    get_scan_details [] "scan-5" 1 = DetailResult.notFound "scan-5" := by
  refine ⟨notfound_indistinguishable [recOther] "scan-5" 1 (by decide), ?_⟩
  exact (notfound_indistinguishable [] "scan-5" 1 (by decide)).1

end Osint
